import Mathlib

/-!
Verification of the raspend worker-scheduling / command-registry core.

The Python sources are embedded shallowly:
- `datetime` values and `timedelta` durations are modelled as integer
  numbers of seconds (the code only ever compares and adds them, and
  converts differences with `total_seconds()`);
- Python values passed where an enum is expected are modelled by `PyValue`,
  which records exactly what the code inspects: `None`-ness, membership in
  `ScheduleRepetitionType`, and truthiness;
- fallible constructors and calls return `Except`;
- the wall clock read by `datetime.now()` is passed in explicitly; a loop
  that re-reads the clock receives the sequence of read values as a
  function argument.
-/

/-- The five members of `ScheduleRepetitionType` (workerthreads.py, lines 85-92). -/
inductive ScheduleRepetitionType where
  | WEEKLY
  | DAILY
  | HOURLY
  | MINUTELY
  | SECOND
deriving DecidableEq, Repr

/-- A Python value in a position where `ScheduleRepetitionType` is expected.
The constructor code inspects only: whether it is `None`, whether it is an
instance of `ScheduleRepetitionType` (and which member), and its truthiness.
`pyOther b` stands for any non-`None` value that is not an enum member and
whose truthiness is `b` (for example `0`, `""` and `False` are falsy). -/
inductive PyValue where
  | pyNone
  | pyEnum (t : ScheduleRepetitionType)
  | pyOther (truthy : Bool)
deriving DecidableEq, Repr

/-- Python truthiness of a `PyValue`. Enum members are always truthy
(`Enum` does not override `__bool__`). -/
def pyTruthy : PyValue → Bool
  | .pyNone => false
  | .pyEnum _ => true
  | .pyOther b => b

/-- The `isinstance(x, ScheduleRepetitionType)` test. -/
def isRepetitionTypeInstance : PyValue → Bool
  | .pyEnum _ => true
  | _ => false

/-- Errors raised by `ScheduledWorkerThread.__init__`. -/
inductive InitError where
  | typeError
  | valueError
deriving DecidableEq, Repr

/-- The argument-validation part of `ScheduledWorkerThread.__init__`
(workerthreads.py, lines 109-118): first the `repetitionType` check
(`if repetitionType and not isinstance(...)` raises `TypeError`, `elif
repetitionType is None` substitutes `DAILY`), then the
`repetitionFactor < 1` check raising `ValueError`.  On success it returns
the stored `(repetitionType, repetitionFactor)` pair. -/
def scheduledWorkerInit (repetitionType : PyValue) (repetitionFactor : Int) :
    Except InitError (PyValue × Int) :=
  if pyTruthy repetitionType && !(isRepetitionTypeInstance repetitionType) then
    .error .typeError
  else
    let rt := if repetitionType = .pyNone then .pyEnum .DAILY else repetitionType
    if repetitionFactor < 1 then .error .valueError
    else .ok (rt, repetitionFactor)

/-- `ScheduledWorkerThread.getTimedeltaFactors` (workerthreads.py, lines
121-133): five variables start at zero and each of five independent `if`
statements assigns `repetitionFactor` to the field matching the stored
repetition type.  The stored type is kept as a `PyValue` because the
constructor can store a non-enum value (see `scheduledWorkerInit`);
comparison of such a value with an enum member is `False` in Python.
Returned in source order `(weeks, days, hours, minutes, seconds)`. -/
def getTimedeltaFactors (repetitionType : PyValue) (repetitionFactor : Int) :
    Int × Int × Int × Int × Int :=
  let weeks := if repetitionType = .pyEnum .WEEKLY then repetitionFactor else 0
  let days := if repetitionType = .pyEnum .DAILY then repetitionFactor else 0
  let hours := if repetitionType = .pyEnum .HOURLY then repetitionFactor else 0
  let minutes := if repetitionType = .pyEnum .MINUTELY then repetitionFactor else 0
  let seconds := if repetitionType = .pyEnum .SECOND then repetitionFactor else 0
  (weeks, days, hours, minutes, seconds)

/-- `timedelta(weeks, days, hours, minutes, seconds).total_seconds()` as an
integer number of seconds. -/
def timedeltaTotalSeconds (f : Int × Int × Int × Int × Int) : Int :=
  f.1 * 604800 + f.2.1 * 86400 + f.2.2.1 * 3600 + f.2.2.2.1 * 60 + f.2.2.2.2

/-- The catch-up loop of `ScheduledWorkerThread.run` (workerthreads.py,
lines 142-151) with the clock frozen at `now`: starting from
`t0 = scheduledStart`, while `timeout = t0 - now` is negative, add one
period.  Returns the first target `t0` at loop exit.  The loop condition in
the source is `timeout < 0.0`, a strict comparison. -/
def catchUpTarget (period : Int) (hp : 0 < period) (now : Int) (t0 : Int) : Int :=
  if t0 - now < 0 then catchUpTarget period hp now (t0 + period) else t0
termination_by (now - t0).toNat
decreasing_by
  omega

/-- State of the firing loop of `ScheduledWorkerThread.run` (workerthreads.py,
lines 153-161): the current target `t0` and the wait `timeout` for it. -/
structure SchedState where
  t0 : Int
  timeout : Int
deriving DecidableEq, Repr

/-- One iteration of the firing loop after `invoke()` returns: the next
target is `t1 = t0 + period` (derived from the previous target, not from
the clock), and the next timeout is `t1` minus the clock value read by
`datetime.now()` after `invoke()` returned. -/
def fireStep (period : Int) (nowAfterInvoke : Int) (s : SchedState) : SchedState :=
  let t1 := s.t0 + period
  { t0 := t1, timeout := t1 - nowAfterInvoke }

/-- The trace of firing-loop states: `fireTrace period s0 nows n` is the
state before iteration `n`, where `nows i` is the clock value observed
after the handler invocation of iteration `i`.  The `nows` argument models
arbitrarily late `invoke()` returns. -/
def fireTrace (period : Int) (s0 : SchedState) (nows : Nat → Int) : Nat → SchedState
  | 0 => s0
  | n + 1 => fireStep period (nows n) (fireTrace period s0 nows n)

lemma fireTrace_t0 (period : Int) (s0 : SchedState) (nows : Nat → Int) (n : Nat) :
    (fireTrace period s0 nows n).t0 = s0.t0 + n * period := by
  induction n with
  | zero => simp [fireTrace]
  | succ n ih =>
    simp [fireTrace, fireStep, ih]
    ring

/-- C1: for every repetition kind and every factor, `getTimedeltaFactors`
sets exactly the field of that kind to the factor and every other field to
zero. -/
theorem raspend_C1_single_unit_period (t : ScheduleRepetitionType) (f : Int)
    (hf : 1 ≤ f) :
    getTimedeltaFactors (.pyEnum t) f =
      match t with
      | .WEEKLY => (f, 0, 0, 0, 0)
      | .DAILY => (0, f, 0, 0, 0)
      | .HOURLY => (0, 0, f, 0, 0)
      | .MINUTELY => (0, 0, 0, f, 0)
      | .SECOND => (0, 0, 0, 0, f) := by
  cases t <;> simp [getTimedeltaFactors]

/-- Witness for C1 at kind HOURLY and factor 3. -/
theorem raspend_C1_single_unit_period_witness :
    (1 : Int) ≤ 3 ∧ getTimedeltaFactors (.pyEnum .HOURLY) 3 = (0, 0, 3, 0, 0) :=
  ⟨by norm_num, raspend_C1_single_unit_period .HOURLY 3 (by norm_num)⟩

lemma catchUpTarget_eq (period : Int) (hp : 0 < period) (now : Int) :
    ∀ (k : Nat) (t0 r : Int), now - t0 = k * period + r → 0 < r → r < period →
      catchUpTarget period hp now t0 = t0 + ((k : Int) + 1) * period := by
  intro k
  induction k with
  | zero =>
    intro t0 r hdecomp hr0 hr1
    have h1 : t0 - now < 0 := by push_cast at hdecomp; omega
    rw [catchUpTarget, if_pos h1]
    have h2 : ¬ (t0 + period - now < 0) := by push_cast at hdecomp; omega
    rw [catchUpTarget, if_neg h2]
    push_cast
    ring
  | succ k ih =>
    intro t0 r hdecomp hr0 hr1
    have hkp : (0 : Int) ≤ (k : Int) * period := by positivity
    have h1 : t0 - now < 0 := by push_cast at hdecomp; nlinarith
    rw [catchUpTarget, if_pos h1]
    have hd2 : now - (t0 + period) = (k : Int) * period + r := by
      push_cast at hdecomp; linarith
    have := ih (t0 + period) r hd2 hr0 hr1
    rw [this]
    push_cast
    ring

/-- C2 counterexample: with `period = 5`, `now = 10` and
`scheduledStart = 5`, the start lies in the past by exactly `k = 1` whole
period with remainder `r = 0` (so `0 <= r < period` as the claim allows),
but the loop condition `timeout < 0.0` is strict, so the loop stops at
`target = 10 = now`: the first target is `scheduledStart + k * period`,
not `scheduledStart + (k+1) * period = 15`, and it does not lie in the
half-open interval `(now, now + period] = (10, 15]`. -/
theorem raspend_C2_counterexample :
    (10 : Int) - 5 = 1 * 5 + 0 ∧
    catchUpTarget 5 (by norm_num) 10 5 = 10 ∧
    (10 : Int) ≠ 5 + (1 + 1) * 5 ∧
    ¬ ((10 : Int) < 10) := by
  refine ⟨by norm_num, ?_, by norm_num, by norm_num⟩
  rw [catchUpTarget, if_pos (by norm_num)]
  rw [catchUpTarget, if_neg (by norm_num)]
  norm_num

/-- C2 (amended): when the remainder is strictly positive, i.e.
`now - scheduledStart = k * period + r` with `0 < r < period`, the
catch-up loop adds the period exactly `k + 1` times, so the first target
is `scheduledStart + (k+1) * period`, which lies in `(now, now + period]`.
(For `r = 0` the loop stops one addition earlier, at `target = now`; see
the counterexample.) -/
theorem raspend_C2_first_target (period : Int) (hp : 0 < period) (now t0 : Int)
    (k : Nat) (r : Int) (hdecomp : now - t0 = k * period + r)
    (hr0 : 0 < r) (hr1 : r < period) :
    catchUpTarget period hp now t0 = t0 + ((k : Int) + 1) * period ∧
    now < t0 + ((k : Int) + 1) * period ∧
    t0 + ((k : Int) + 1) * period ≤ now + period := by
  refine ⟨catchUpTarget_eq period hp now k t0 r hdecomp hr0 hr1, ?_, ?_⟩ <;>
    nlinarith [hdecomp]

/-- Witness for C2 (amended) at `period = 5`, `now = 10`,
`scheduledStart = 3` (so `k = 1`, `r = 2`): the first target is
`3 + 2 * 5 = 13`, inside `(10, 15]`. -/
theorem raspend_C2_first_target_witness :
    ((0 : Int) < 5 ∧ (10 : Int) - 3 = ((1 : Nat) : Int) * 5 + 2 ∧
      (0 : Int) < 2 ∧ (2 : Int) < 5) ∧
    (catchUpTarget 5 (by norm_num) 10 3 = 3 + (((1 : Nat) : Int) + 1) * 5 ∧
      (10 : Int) < 3 + (((1 : Nat) : Int) + 1) * 5 ∧
      3 + (((1 : Nat) : Int) + 1) * 5 ≤ 10 + 5) :=
  ⟨⟨by norm_num, by norm_num, by norm_num, by norm_num⟩,
    raspend_C2_first_target 5 (by norm_num) 10 3 1 2 (by norm_num)
      (by norm_num) (by norm_num)⟩

/-- C3: in the firing loop, consecutive targets differ by exactly one
period, whatever clock values are observed after each `invoke()` returns
(`nows` models arbitrarily late handler completions), and the target
sequence is entirely independent of those observed clock values: the next
target is always computed from the previous target, so no drift
accumulates over any number of iterations. -/
theorem raspend_C3_no_drift (kind : ScheduleRepetitionType) (factor : Int)
    (s0 : SchedState) (nows : Nat → Int) (n : Nat) :
    (fireTrace (timedeltaTotalSeconds (getTimedeltaFactors (.pyEnum kind) factor))
        s0 nows (n + 1)).t0 -
      (fireTrace (timedeltaTotalSeconds (getTimedeltaFactors (.pyEnum kind) factor))
        s0 nows n).t0 =
      timedeltaTotalSeconds (getTimedeltaFactors (.pyEnum kind) factor) ∧
    ∀ nows2 : Nat → Int,
      (fireTrace (timedeltaTotalSeconds (getTimedeltaFactors (.pyEnum kind) factor))
          s0 nows2 n).t0 =
        (fireTrace (timedeltaTotalSeconds (getTimedeltaFactors (.pyEnum kind) factor))
          s0 nows n).t0 := by
  constructor
  · rw [fireTrace_t0, fireTrace_t0]
    push_cast
    ring
  · intro nows2
    rw [fireTrace_t0, fireTrace_t0]

/-- C8: with a `repetitionType` that passes the type check (any falsy
value, i.e. `None`, or any `ScheduleRepetitionType` member), construction
of a `ScheduledWorkerThread` raises `ValueError` exactly when
`repetitionFactor < 1`, and succeeds with respect to this check for every
`repetitionFactor >= 1`.  The check runs in `__init__`, before the thread
is started. -/
theorem raspend_C8_factor_check (rt : PyValue) (factor : Int)
    (hvalid : pyTruthy rt = false ∨ isRepetitionTypeInstance rt = true) :
    (factor < 1 → scheduledWorkerInit rt factor = .error .valueError) ∧
    (1 ≤ factor → ∃ s, scheduledWorkerInit rt factor = .ok s) := by
  have hcond : (pyTruthy rt && !(isRepetitionTypeInstance rt)) = false := by
    rcases hvalid with h | h <;> simp [h]
  constructor
  · intro hlt
    simp [scheduledWorkerInit, hcond, hlt]
  · intro hge
    have hnl : ¬ factor < 1 := by omega
    refine ⟨((if rt = .pyNone then PyValue.pyEnum .DAILY else rt), factor), ?_⟩
    simp [scheduledWorkerInit, hcond, hnl]

/-- Witness for C8 at `repetitionType = None` and both factor sides
(`factor = 1` succeeds; the error side is exercised through the same
theorem at `factor = 0`). -/
theorem raspend_C8_factor_check_witness :
    (pyTruthy .pyNone = false ∨ isRepetitionTypeInstance .pyNone = true) ∧
    ((0 : Int) < 1 → scheduledWorkerInit .pyNone 0 = .error .valueError) ∧
    ((1 : Int) ≤ 1 → ∃ s, scheduledWorkerInit .pyNone 1 = .ok s) :=
  ⟨Or.inl rfl,
    fun h => (raspend_C8_factor_check .pyNone 0 (Or.inl rfl)).1 h,
    fun h => (raspend_C8_factor_check .pyNone 1 (Or.inl rfl)).2 h⟩

/-- C10 counterexample: `0` is a non-`None` Python value that is not a
`ScheduleRepetitionType` member (modelled as `pyOther false`, a falsy
non-enum value), yet the constructor does not raise `TypeError`: the guard
`if repetitionType and not isinstance(...)` short-circuits on falsiness,
and the `elif repetitionType is None` branch does not apply either, so the
value is stored unchanged. -/
theorem raspend_C10_counterexample :
    scheduledWorkerInit (.pyOther false) 1 = .ok (.pyOther false, 1) ∧
    (PyValue.pyOther false) ≠ .pyNone ∧
    isRepetitionTypeInstance (.pyOther false) = false :=
  ⟨rfl, by decide, rfl⟩

/-- C10 (amended): `repetitionType = None` silently defaults to `DAILY`;
a truthy value that is not a `ScheduleRepetitionType` member raises
`TypeError`; but a falsy non-`None` non-member (such as `0`) is accepted
silently and stored unchanged; enum members are stored unchanged. -/
theorem raspend_C10_type_handling (factor : Int) (hf : 1 ≤ factor) :
    scheduledWorkerInit .pyNone factor = .ok (.pyEnum .DAILY, factor) ∧
    scheduledWorkerInit (.pyOther true) factor = .error .typeError ∧
    scheduledWorkerInit (.pyOther false) factor = .ok (.pyOther false, factor) ∧
    ∀ t, scheduledWorkerInit (.pyEnum t) factor = .ok (.pyEnum t, factor) := by
  have hnl : ¬ factor < 1 := by omega
  refine ⟨?_, ?_, ?_, ?_⟩
  · simp [scheduledWorkerInit, pyTruthy, isRepetitionTypeInstance, hnl]
  · simp [scheduledWorkerInit, pyTruthy, isRepetitionTypeInstance]
  · simp [scheduledWorkerInit, pyTruthy, isRepetitionTypeInstance, hnl]
  · intro t
    simp [scheduledWorkerInit, pyTruthy, isRepetitionTypeInstance, hnl]

/-- Witness for C10 (amended) at `factor = 1`. -/
theorem raspend_C10_type_handling_witness :
    (1 : Int) ≤ 1 ∧
    (scheduledWorkerInit .pyNone 1 = .ok (.pyEnum .DAILY, 1) ∧
      scheduledWorkerInit (.pyOther true) 1 = .error .typeError ∧
      scheduledWorkerInit (.pyOther false) 1 = .ok (.pyOther false, 1) ∧
      ∀ t, scheduledWorkerInit (.pyEnum t) 1 = .ok (.pyEnum t, 1)) :=
  ⟨by norm_num, raspend_C10_type_handling 1 (by norm_num)⟩

/-- The kind of a parameter in an inspected Python signature
(`inspect.Parameter.kind`; var-positional and var-keyword parameters do
not occur in the callables the registry is used with and are not
modelled). -/
inductive ParamKind where
  | positionalOnly
  | positionalOrKeyword
  | keywordOnly
deriving DecidableEq, Repr

/-- One entry of `inspect.signature(f).parameters`: its name, kind, and
whether it has a default value. -/
structure PyParam where
  name : String
  kind : ParamKind
  hasDefault : Bool
deriving DecidableEq, Repr

/-- The aspects of a Python callable that `CallbackFunction.__init__`
(commandmapping.py, lines 33-37) touches: whether `inspect.signature`
succeeds on it, whether it is a bound method (it must have a `__self__`
attribute for `__findObjectName`), its signature parameters, and its
behaviour as a function from keyword-argument dictionaries to results.
The behaviour is abstract: the registry never inspects it. -/
structure PyCallable (V R : Type) where
  hasSignature : Bool
  isBoundMethod : Bool
  params : List PyParam
  fn : List (String × V) → R

/-- Errors that `CallbackFunction.__init__` can raise: `inspect.signature`
raising `ValueError` for an unsupported callable, or the `__self__`
access in `__findObjectName` raising `AttributeError` for a callable that
is not a bound method.  No check of parameter kinds occurs. -/
inductive RegError where
  | noSignature
  | notBoundMethod
deriving DecidableEq, Repr

/-- The stored state of a `CallbackFunction`: its signature parameters and
the underlying callable behaviour. -/
structure CallbackFunction (V R : Type) where
  params : List PyParam
  fn : List (String × V) → R

/-- `CallbackFunction.__init__` (commandmapping.py, lines 33-37):
`inspect.signature` is taken (raising for callables without an
introspectable signature), then `__findObjectName` dereferences
`__self__` (raising for plain functions).  The parameter kinds are never
examined. -/
def callbackFunctionInit {V R : Type} (c : PyCallable V R) :
    Except RegError (CallbackFunction V R) :=
  if !c.hasSignature then .error .noSignature
  else if !c.isBoundMethod then .error .notBoundMethod
  else .ok { params := c.params, fn := c.fn }

/-- Names of the signature parameters, in order
(`self.__signature.parameters.keys()`). -/
def paramNames (ps : List PyParam) : List String :=
  ps.map PyParam.name

/-- `CallbackFunction.hasParameter` (commandmapping.py, lines 65-69):
membership of a name in `signature.parameters.keys()`.  Positional-only
parameters are listed there like any other. -/
def hasParameter (ps : List PyParam) (k : String) : Bool :=
  (paramNames ps).contains k

/-- Whether a parameter can receive its value from a keyword argument. -/
def kwAcceptable (p : PyParam) : Bool :=
  match p.kind with
  | .positionalOnly => false
  | _ => true

/-- Errors arising on the execution path of a command: the explicit
`KeyError` raised by the argument check in `CallbackFunction.invoke`, and
the two `TypeError` cases Python itself raises when binding
`self.__function(**args)`: a keyword that no keyword-bindable parameter
accepts, and a required parameter left without a value. -/
inductive CmdError where
  | keyError (key : String)
  | typeErrorUnexpectedKw (key : String)
  | typeErrorMissing (param : String)
deriving DecidableEq, Repr

/-- Semantics of the Python call `f(**args)` (the last line of
`CallbackFunction.invoke`): every supplied keyword must name a
keyword-bindable parameter, every parameter without a default must
receive a value (positional-only parameters can receive none here, since
no positional arguments are passed), and then the callable runs on
exactly the supplied keyword arguments. -/
def pyKwCall {V R : Type} (ps : List PyParam) (fn : List (String × V) → R)
    (args : List (String × V)) : Except CmdError R :=
  match (args.map Prod.fst).find?
      (fun k => !(ps.any (fun p => p.name == k && kwAcceptable p))) with
  | some k => .error (.typeErrorUnexpectedKw k)
  | none =>
    match ps.find? (fun p => !p.hasDefault &&
        (p.kind == ParamKind.positionalOnly || !((args.map Prod.fst).contains p.name))) with
    | some p => .error (.typeErrorMissing p.name)
    | none => .ok (fn args)

/-- `CallbackFunction.invoke` (commandmapping.py, lines 77-86): every key
of `args` is first checked against the signature parameter names, raising
`KeyError` naming the first unknown key; only then is the wrapped
callable called with `**args`.  (The `type(args) is dict` check is
discharged by typing: the embedding passes a dictionary by construction.) -/
def CallbackFunction.invoke {V R : Type} (cb : CallbackFunction V R)
    (args : List (String × V)) : Except CmdError R :=
  match (args.map Prod.fst).find? (fun k => !(hasParameter cb.params k)) with
  | some k => .error (.keyError k)
  | none => pyKwCall cb.params cb.fn args

/-- `Command` (commandmapping.py, lines 88-124) wraps one
`CallbackFunction`. -/
structure Command (V R : Type) where
  callback : CallbackFunction V R

/-- `Command.execute` (commandmapping.py, lines 120-124) delegates to
`CallbackFunction.invoke`. -/
def Command.execute {V R : Type} (c : Command V R) (args : List (String × V)) :
    Except CmdError R :=
  c.callback.invoke args

/-- `Command.__init__` (commandmapping.py, lines 93-95) constructs the
wrapped `CallbackFunction`. -/
def commandInit {V R : Type} (c : PyCallable V R) : Except RegError (Command V R) :=
  (callbackFunctionInit c).map (fun cb => { callback := cb })

lemma string_contains_iff {l : List String} {a : String} :
    l.contains a = true ↔ a ∈ l := by
  rw [List.contains_eq_any_beq, List.any_eq_true]
  constructor
  · rintro ⟨x, hx, hbeq⟩
    rwa [show a = x from by simpa using hbeq]
  · intro h
    exact ⟨a, h, by simp⟩

/-- C4: executing a command with an `args` dictionary containing a key
that is not among the signature parameter names fails with a `KeyError`
naming the (first) offending key, and the wrapped callable is never
consulted: the same error results for every possible callable behaviour
`g`. -/
theorem raspend_C4_unknown_key {V R : Type} (ps : List PyParam)
    (args : List (String × V))
    (h : ∃ k ∈ args.map Prod.fst, hasParameter ps k = false) :
    ∃ k0, (∀ g : List (String × V) → R,
        Command.execute ⟨⟨ps, g⟩⟩ args = .error (.keyError k0)) ∧
      k0 ∈ args.map Prod.fst ∧ hasParameter ps k0 = false := by
  obtain ⟨k, hk, hkp⟩ := h
  have hfind : ((args.map Prod.fst).find? (fun k => !(hasParameter ps k))).isSome := by
    rw [List.find?_isSome]
    exact ⟨k, hk, by simp [hkp]⟩
  obtain ⟨k0, hk0⟩ := Option.isSome_iff_exists.mp hfind
  refine ⟨k0, ?_, ?_, ?_⟩
  · intro g
    simp [Command.execute, CallbackFunction.invoke, hk0]
  · exact List.mem_of_find?_eq_some hk0
  · have := List.find?_some hk0
    simpa using this

/-- Witness for C4: the single parameter is named `a` but the key `bogus`
is supplied. -/
theorem raspend_C4_unknown_key_witness :
    (∃ k ∈ ([("bogus", (1 : Nat))].map Prod.fst),
        hasParameter [⟨"a", .positionalOrKeyword, false⟩] k = false) ∧
    ∃ k0, (∀ g : List (String × Nat) → Nat,
        Command.execute ⟨⟨[⟨"a", .positionalOrKeyword, false⟩], g⟩⟩
            [("bogus", 1)] = .error (.keyError k0)) ∧
      k0 ∈ [("bogus", (1 : Nat))].map Prod.fst ∧
      hasParameter [⟨"a", .positionalOrKeyword, false⟩] k0 = false :=
  ⟨⟨"bogus", by decide, by decide⟩,
    raspend_C4_unknown_key _ _ ⟨"bogus", by decide, by decide⟩⟩

/-- A command whose callable has two required keyword-bindable parameters,
for the C5 counterexample. -/
def cbMissingArg : CallbackFunction Nat Nat :=
  ⟨[⟨"a", .positionalOrKeyword, false⟩, ⟨"b", .positionalOrKeyword, false⟩],
    fun l => l.length⟩

/-- C5 counterexample: the callable declares parameters `a` and `b`, both
without defaults; the `args` dictionary `{a: 7}` has every key among the
declared parameter names, yet executing does not invoke the callable and
does not return its result: the underlying Python call raises `TypeError`
because the required parameter `b` receives no value. -/
theorem raspend_C5_counterexample :
    (∀ k ∈ ([("a", (7 : Nat))].map Prod.fst),
        hasParameter cbMissingArg.params k = true) ∧
    Command.execute ⟨cbMissingArg⟩ [("a", 7)] = .error (.typeErrorMissing "b") ∧
    Command.execute ⟨cbMissingArg⟩ [("a", 7)] ≠ .ok (cbMissingArg.fn [("a", 7)]) := by
  refine ⟨by decide, rfl, ?_⟩
  rw [show Command.execute ⟨cbMissingArg⟩ [("a", 7)] =
    .error (.typeErrorMissing "b") from rfl]
  simp

/-- C5 (amended): executing a command with an `args` dictionary whose
every key is a declared parameter name succeeds and returns the callable
result on exactly those keyword arguments, provided additionally that
every supplied key names a keyword-bindable parameter and every parameter
without a default receives a value (so in particular the empty dictionary
works when all parameters are optional). -/
theorem raspend_C5_valid_args {V R : Type} (cb : CallbackFunction V R)
    (args : List (String × V))
    (hkeys : ∀ k ∈ args.map Prod.fst, hasParameter cb.params k = true)
    (hkw : ∀ p ∈ cb.params, p.name ∈ args.map Prod.fst → kwAcceptable p = true)
    (hreq : ∀ p ∈ cb.params, p.hasDefault = false →
        p.kind ≠ ParamKind.positionalOnly ∧ p.name ∈ args.map Prod.fst) :
    Command.execute ⟨cb⟩ args = .ok (cb.fn args) := by
  unfold Command.execute CallbackFunction.invoke
  have h1 : (args.map Prod.fst).find? (fun k => !(hasParameter cb.params k)) = none := by
    rw [List.find?_eq_none]
    intro k hk
    simp [hkeys k hk]
  rw [h1]
  unfold pyKwCall
  have h2 : (args.map Prod.fst).find?
      (fun k => !(cb.params.any (fun p => p.name == k && kwAcceptable p))) = none := by
    rw [List.find?_eq_none]
    intro k hk
    have hh := hkeys k hk
    unfold hasParameter paramNames at hh
    rw [string_contains_iff, List.mem_map] at hh
    obtain ⟨p, hp, hpname⟩ := hh
    simp only [Bool.not_eq_true', Bool.not_eq_false, List.any_eq_true]
    exact ⟨p, hp, by simp [hpname, hkw p hp (hpname ▸ hk)]⟩
  rw [h2]
  have h3 : cb.params.find? (fun p => !p.hasDefault &&
      (p.kind == ParamKind.positionalOnly ||
        !((args.map Prod.fst).contains p.name))) = none := by
    rw [List.find?_eq_none]
    intro p hp
    by_cases hd : p.hasDefault
    · simp [hd]
    · obtain ⟨hknd, hmem⟩ := hreq p hp (by simpa using hd)
      have hc : (args.map Prod.fst).contains p.name = true :=
        string_contains_iff.mpr hmem
      have hbeq : (p.kind == ParamKind.positionalOnly) = false := by
        simpa using hknd
      simp [hd, hbeq, hc]
      obtain ⟨⟨k1, v1⟩, ha, hfst⟩ := List.mem_map.mp hmem
      simp only at hfst
      subst hfst
      exact ⟨v1, ha⟩
  rw [h3]

/-- A command whose callable has one required and one optional parameter,
for the C5 witness. -/
def cbValidArgs : CallbackFunction Nat Nat :=
  ⟨[⟨"a", .positionalOrKeyword, false⟩, ⟨"b", .keywordOnly, true⟩],
    fun l => l.length⟩

/-- Witness for C5 (amended): supplying only the required parameter `a`
invokes the callable on exactly that argument list. -/
theorem raspend_C5_valid_args_witness :
    ((∀ k ∈ ([("a", (7 : Nat))].map Prod.fst),
        hasParameter cbValidArgs.params k = true) ∧
      (∀ p ∈ cbValidArgs.params,
        p.name ∈ ([("a", (7 : Nat))].map Prod.fst) → kwAcceptable p = true) ∧
      (∀ p ∈ cbValidArgs.params, p.hasDefault = false →
        p.kind ≠ ParamKind.positionalOnly ∧
          p.name ∈ ([("a", (7 : Nat))].map Prod.fst))) ∧
    Command.execute ⟨cbValidArgs⟩ [("a", 7)] = .ok (cbValidArgs.fn [("a", 7)]) :=
  ⟨⟨by decide, by decide, by decide⟩,
    raspend_C5_valid_args cbValidArgs [("a", 7)] (by decide) (by decide) (by decide)⟩

/-- A bound method with an introspectable signature whose only parameter
is positional-only, for C6. -/
def posOnlyCallable : PyCallable Nat Nat :=
  ⟨true, true, [⟨"x", .positionalOnly, false⟩], fun _ => 0⟩

/-- C6 counterexample: a callable with a positional-only signature is
accepted at registration (`Command.__init__` succeeds; no parameter-kind
check exists there), contradicting the claim that registration raises;
moreover its declared parameter `x` cannot be supplied by name: the
attempt passes the registry key check and fails only at call time. -/
theorem raspend_C6_counterexample :
    (∃ p ∈ posOnlyCallable.params, p.kind = ParamKind.positionalOnly) ∧
    commandInit posOnlyCallable =
      .ok ⟨⟨posOnlyCallable.params, posOnlyCallable.fn⟩⟩ ∧
    Command.execute ⟨⟨posOnlyCallable.params, posOnlyCallable.fn⟩⟩
        [("x", 5)] = .error (.typeErrorUnexpectedKw "x") :=
  ⟨by decide, rfl, rfl⟩

/-- C6 (amended): registration checks only that the signature is
introspectable and that the callable is a bound method — never the
parameter kinds — so any such callable registers successfully; a
positional-only parameter (with a unique name) supplied by keyword passes
the registry argument-name check but the underlying call then raises
`TypeError`, i.e. the rejection happens at call time, not at registration
time. -/
theorem raspend_C6_no_registration_check {V R : Type} (c : PyCallable V R)
    (hsig : c.hasSignature = true) (hbound : c.isBoundMethod = true) :
    commandInit c = .ok ⟨⟨c.params, c.fn⟩⟩ ∧
    ∀ p ∈ c.params, p.kind = ParamKind.positionalOnly →
      (∀ q ∈ c.params, q.name = p.name → q = p) →
      hasParameter c.params p.name = true ∧
      ∀ v : V, Command.execute ⟨⟨c.params, c.fn⟩⟩ [(p.name, v)] =
        .error (.typeErrorUnexpectedKw p.name) := by
  constructor
  · simp [commandInit, callbackFunctionInit, hsig, hbound, Except.map]
  · intro p hp hkind huniq
    have hhas : hasParameter c.params p.name = true := by
      unfold hasParameter paramNames
      exact string_contains_iff.mpr (List.mem_map.mpr ⟨p, hp, rfl⟩)
    refine ⟨hhas, ?_⟩
    intro v
    unfold Command.execute CallbackFunction.invoke
    have h1 : (([(p.name, v)]).map Prod.fst).find?
        (fun k => !(hasParameter c.params k)) = none := by
      simp [List.find?, hhas]
    rw [h1]
    unfold pyKwCall
    have hany : (c.params.any (fun q => q.name == p.name && kwAcceptable q)) = false := by
      rw [List.any_eq_false]
      intro q hq
      by_cases hqn : q.name = p.name
      · have hqp : q = p := huniq q hq hqn
        subst hqp
        simp [kwAcceptable, hkind]
      · simp [hqn]
    have h2 : (([(p.name, v)]).map Prod.fst).find?
        (fun k => !(c.params.any (fun q => q.name == k && kwAcceptable q))) =
        some p.name := by
      simp [List.find?, hany]
    rw [h2]

/-- Witness for C6 (amended) at the concrete positional-only callable. -/
theorem raspend_C6_no_registration_check_witness :
    (posOnlyCallable.hasSignature = true ∧ posOnlyCallable.isBoundMethod = true) ∧
    commandInit posOnlyCallable =
      .ok ⟨⟨posOnlyCallable.params, posOnlyCallable.fn⟩⟩ ∧
    Command.execute ⟨⟨posOnlyCallable.params, posOnlyCallable.fn⟩⟩
        [("x", (5 : Nat))] = .error (.typeErrorUnexpectedKw "x") :=
  ⟨⟨rfl, rfl⟩, (raspend_C6_no_registration_check posOnlyCallable rfl rfl).1,
    by
      have h := (raspend_C6_no_registration_check posOnlyCallable rfl rfl).2
        ⟨"x", .positionalOnly, false⟩ (by decide) rfl (by decide)
      exact h.2 5⟩

/-- A JSON-serializable Python value held in the shared dictionary: a
nested dictionary or a scalar leaf. -/
inductive PyData where
  | dict (entries : List (String × PyData))
  | value (n : Int)
deriving Repr

/-- Splitting a character list at every occurrence of `sep`, keeping empty
segments — the semantics of Python `str.split` with a one-character
separator. -/
def splitChar (sep : Char) : List Char → List (List Char)
  | [] => [[]]
  | c :: cs =>
    let rest := splitChar sep cs
    if c = sep then [] :: rest
    else match rest with
      | r :: rs => (c :: r) :: rs
      | [] => [[c]]

/-- Python `path.split(sep)` for a one-character separator. -/
def pySplit (s : String) (sep : Char) : List String :=
  (splitChar sep s.data).map String.mk

/-- One step of the lookup in `onGetDetailedDataPath`: the guard
`type(data) is dict and part in data.keys()` together with `data[part]`.
Returns `some` child exactly when the current value is a dictionary and
has the key. -/
def lookupChild (part : String) (d : PyData) : Option PyData :=
  match d with
  | .dict entries => entries.lookup part
  | .value _ => none

/-- The loop body of `RaspendHttpRequestHandler.onGetDetailedDataPath`
(http.py, lines 163-168): walk the path components in order; descend when
the current value is a dictionary containing the component, otherwise
leave the current value unchanged and continue with the next component. -/
def walkPath : PyData → List String → PyData
  | d, [] => d
  | d, part :: rest =>
    match lookupChild part d with
    | some v => walkPath v rest
    | none => walkPath d rest

/-- Lock operations performed by a request handler. -/
inductive LockOp where
  | acquire
  | release
deriving DecidableEq, Repr

/-- `RaspendHttpRequestHandler.onGetDetailedDataPath` (http.py, lines
160-171): splits `self.path` on `/`, acquires the data lock once, walks
`pathParts[1:]` over the shared dictionary (note that for a request path
`/data/x/y` the first walked component is the literal string `data`),
serializes the reached value and releases the lock.  Returned here as the
reached value paired with the sequence of lock operations performed. -/
def onGetDetailedDataPath (sharedDict : PyData) (path : String) :
    PyData × List LockOp :=
  let pathParts := pySplit path '/'
  (walkPath sharedDict (pathParts.drop 1), [LockOp.acquire, LockOp.release])

/-- The fully-resolving nested lookup: `some` of the addressed sub-element
when every component resolves, `none` otherwise.  This is the notion of
"fully resolvable path" used by the claim. -/
def resolveFull : PyData → List String → Option PyData
  | d, [] => some d
  | .dict entries, part :: rest =>
    match entries.lookup part with
    | some v => resolveFull v rest
    | none => none
  | .value _, _ :: _ => none

lemma walkPath_of_resolveFull :
    ∀ (parts : List String) (d v : PyData),
      resolveFull d parts = some v → walkPath d parts = v := by
  intro parts
  induction parts with
  | nil =>
    intro d v h
    simp [resolveFull] at h
    simp [walkPath, h]
  | cons p ps ih =>
    intro d v h
    cases d with
    | value n => simp [resolveFull] at h
    | dict es =>
      cases hl : es.lookup p with
      | none => rw [resolveFull, hl] at h; exact absurd h (by simp)
      | some w =>
        rw [resolveFull, hl] at h
        rw [walkPath, lookupChild, hl]
        exact ih w v h

lemma walkPath_of_unresolvable :
    ∀ (parts : List String) (d : PyData),
      (∀ part ∈ parts, lookupChild part d = none) → walkPath d parts = d := by
  intro parts
  induction parts with
  | nil => intro d _; rfl
  | cons p ps ih =>
    intro d h
    rw [walkPath, h p (by simp)]
    exact ih d (fun q hq => h q (by simp [hq]))

/-- The shared dictionary used in the C7 counterexample. -/
def sharedDictMixed : PyData :=
  .dict [("a", .value 1), ("c", .value 2)]

/-- C7 counterexample: for the request path `/data/x/c` over the shared
dictionary `{a: 1, c: 2}`, the intermediate component `x` is missing, so
the last successfully resolved ancestor is the whole dictionary; the
claim therefore demands the whole dictionary as result.  But the loop
does not stop at a failed component: it keeps matching later components
against the current value, so the later component `c` still resolves at
the top level and the handler returns `2`. -/
theorem raspend_C7_counterexample :
    lookupChild "x" sharedDictMixed = none ∧
    (onGetDetailedDataPath sharedDictMixed "/data/x/c").1 = .value 2 ∧
    (onGetDetailedDataPath sharedDictMixed "/data/x/c").1 ≠ sharedDictMixed := by
  refine ⟨rfl, rfl, ?_⟩
  rw [show (onGetDetailedDataPath sharedDictMixed "/data/x/c").1 =
    .value 2 from rfl]
  simp [sharedDictMixed]

/-- C7 (amended): the walk happens under exactly one lock acquisition; a
component that is missing (or met while the current value is not a
dictionary) is skipped and the walk continues with the remaining
components against the current value.  Consequently a fully resolvable
path returns the addressed sub-element, and a path none of whose
components (including the leading `data` segment) matches at the top
level returns the entire shared dictionary. -/
theorem raspend_C7_nested_lookup (d : PyData) (path : String) :
    (∀ v, resolveFull d ((pySplit path '/').drop 1) = some v →
      (onGetDetailedDataPath d path).1 = v) ∧
    ((∀ part ∈ (pySplit path '/').drop 1, lookupChild part d = none) →
      (onGetDetailedDataPath d path).1 = d) ∧
    (onGetDetailedDataPath d path).2 = [LockOp.acquire, LockOp.release] := by
  refine ⟨?_, ?_, rfl⟩
  · intro v h
    exact walkPath_of_resolveFull _ d v h
  · intro h
    exact walkPath_of_unresolvable _ d h

/-- Witness for C7 (amended): both a fully resolvable request (`/data/g`
over `{data: {g: 42}}`, returning `42`; note the walked components include
the leading `data` segment, so full resolution requires a top-level `data`
key) and a wholly unresolvable request (`/data/x` over `{a: 1, c: 2}`,
returning the whole dictionary). -/
theorem raspend_C7_nested_lookup_witness :
    (resolveFull (.dict [("data", .dict [("g", .value 42)])])
        ((pySplit "/data/g" '/').drop 1) = some (.value 42) ∧
      (onGetDetailedDataPath (.dict [("data", .dict [("g", .value 42)])])
        "/data/g").1 = .value 42) ∧
    ((∀ part ∈ (pySplit "/data/x" '/').drop 1,
        lookupChild part sharedDictMixed = none) ∧
      (onGetDetailedDataPath sharedDictMixed "/data/x").1 = sharedDictMixed) := by
  have hnone : ∀ part ∈ (pySplit "/data/x" '/').drop 1,
      lookupChild part sharedDictMixed = none := by
    intro part hp
    have h2 : (pySplit "/data/x" '/').drop 1 = ["data", "x"] := rfl
    rw [h2] at hp
    simp only [List.mem_cons, List.not_mem_nil, or_false] at hp
    rcases hp with h | h <;> subst h <;> rfl
  exact ⟨⟨rfl,
    (raspend_C7_nested_lookup (.dict [("data", .dict [("g", .value 42)])])
      "/data/g").1 (.value 42) rfl⟩,
    ⟨hnone,
      (raspend_C7_nested_lookup sharedDictMixed "/data/x").2.1 hnone⟩⟩

/-- An event in the lifecycle of `RaspendApplication.run`: starting a
thread, setting the shutdown flag, joining a thread. -/
inductive AppEvent (A : Type) where
  | start (w : A)
  | setFlag
  | join (w : A)
deriving DecidableEq, Repr

/-- The event trace of `RaspendApplication.run` (application.py, lines
139-166) on the shutdown path: the HTTP server thread (when a port was
configured) is started first, then every worker in list order; after the
shutdown exception, the shutdown flag is set, every worker is joined by
iterating the worker list in its original order (`for worker in
self.__workers: worker.join()`), and the HTTP server thread is joined
last. -/
def runShutdownTrace {A : Type} (workers : List A) (httpd : Option A) :
    List (AppEvent A) :=
  (match httpd with | some h => [AppEvent.start h] | none => []) ++
  workers.map AppEvent.start ++
  [AppEvent.setFlag] ++
  workers.map AppEvent.join ++
  (match httpd with | some h => [AppEvent.join h] | none => [])

/-- The sequence of joined threads, in order, extracted from a trace. -/
def joinSeq {A : Type} (tr : List (AppEvent A)) : List A :=
  tr.filterMap (fun e => match e with | .join w => some w | _ => none)

/-- The sequence of started threads, in order, extracted from a trace. -/
def startSeq {A : Type} (tr : List (AppEvent A)) : List A :=
  tr.filterMap (fun e => match e with | .start w => some w | _ => none)

lemma joinSeq_append {A : Type} (l1 l2 : List (AppEvent A)) :
    joinSeq (l1 ++ l2) = joinSeq l1 ++ joinSeq l2 := by
  simp [joinSeq]

lemma startSeq_append {A : Type} (l1 l2 : List (AppEvent A)) :
    startSeq (l1 ++ l2) = startSeq l1 ++ startSeq l2 := by
  simp [startSeq]

lemma joinSeq_map_start {A : Type} (ws : List A) :
    joinSeq (ws.map AppEvent.start) = [] := by
  induction ws with
  | nil => rfl
  | cons a t ih => simpa [joinSeq, List.filterMap_cons] using ih

lemma joinSeq_map_join {A : Type} (ws : List A) :
    joinSeq (ws.map AppEvent.join) = ws := by
  induction ws with
  | nil => rfl
  | cons a t ih => simpa [joinSeq, List.filterMap_cons] using ih

lemma startSeq_map_start {A : Type} (ws : List A) :
    startSeq (ws.map AppEvent.start) = ws := by
  induction ws with
  | nil => rfl
  | cons a t ih => simpa [startSeq, List.filterMap_cons] using ih

lemma startSeq_map_join {A : Type} (ws : List A) :
    startSeq (ws.map AppEvent.join) = [] := by
  induction ws with
  | nil => rfl
  | cons a t ih => simpa [startSeq, List.filterMap_cons] using ih

lemma joinSeq_cons_start {A : Type} (a : A) (tr : List (AppEvent A)) :
    joinSeq (AppEvent.start a :: tr) = joinSeq tr := by
  simp [joinSeq, List.filterMap_cons]

lemma joinSeq_cons_setFlag {A : Type} (tr : List (AppEvent A)) :
    joinSeq (AppEvent.setFlag :: tr) = joinSeq tr := by
  simp [joinSeq, List.filterMap_cons]

lemma joinSeq_cons_join {A : Type} (a : A) (tr : List (AppEvent A)) :
    joinSeq (AppEvent.join a :: tr) = a :: joinSeq tr := by
  simp [joinSeq, List.filterMap_cons]

lemma joinSeq_nil {A : Type} : joinSeq ([] : List (AppEvent A)) = [] := rfl

lemma startSeq_cons_start {A : Type} (a : A) (tr : List (AppEvent A)) :
    startSeq (AppEvent.start a :: tr) = a :: startSeq tr := by
  simp [startSeq, List.filterMap_cons]

lemma startSeq_cons_setFlag {A : Type} (tr : List (AppEvent A)) :
    startSeq (AppEvent.setFlag :: tr) = startSeq tr := by
  simp [startSeq, List.filterMap_cons]

lemma startSeq_cons_join {A : Type} (a : A) (tr : List (AppEvent A)) :
    startSeq (AppEvent.join a :: tr) = startSeq tr := by
  simp [startSeq, List.filterMap_cons]

lemma startSeq_nil {A : Type} : startSeq ([] : List (AppEvent A)) = [] := rfl

/-- C9 counterexample: with two workers started in the order `1, 2` (and
the HTTP server thread `3`), the claim demands the reverse-start join
order `[2, 1, 3]`; the code joins the workers by iterating the list in
its original order, producing `[1, 2, 3]`. -/
theorem raspend_C9_counterexample :
    startSeq (runShutdownTrace [1, 2] (some 3)) = [3, 1, 2] ∧
    joinSeq (runShutdownTrace [1, 2] (some 3)) = [1, 2, 3] ∧
    joinSeq (runShutdownTrace [1, 2] (some 3)) ≠ [2, 1, 3] := by
  refine ⟨by decide, by decide, by decide⟩

/-- C9 (amended): after the shutdown flag is set, the workers are joined
in the same order in which they were started (forward order, not
reverse), and the HTTP server thread is joined last, after all workers. -/
theorem raspend_C9_join_order {A : Type} (workers : List A) (h : A) :
    joinSeq (runShutdownTrace workers (some h)) = workers ++ [h] ∧
    startSeq (runShutdownTrace workers (some h)) = h :: workers := by
  constructor
  · simp [runShutdownTrace, joinSeq_append, joinSeq_map_start,
      joinSeq_map_join, joinSeq_cons_start, joinSeq_cons_setFlag,
      joinSeq_cons_join, joinSeq_nil]
  · simp [runShutdownTrace, startSeq_append, startSeq_map_start,
      startSeq_map_join, startSeq_cons_start, startSeq_cons_setFlag,
      startSeq_cons_join, startSeq_nil]
